import Mathlib

/-!
Verification of the postal-inspector mail-processing daemon.

Python text values are modelled as `List Char` (Python `str` is a sequence of
Unicode code points) and byte strings as `List Nat` with values below 256.
Each definition is a shallow embedding of the correspondingly named function
of the source tree.
-/

namespace PostalInspector

/-! ### Python string primitives -/

/-- Characters stripped by Python `str.strip()` (ASCII whitespace;
the exotic Unicode space classes never occur in the inputs modelled here). -/
def pyIsSpace (c : Char) : Bool :=
  c = ' ' || c = '\t' || c = '\n' || c = '\r' || c = '\x0b' || c = '\x0c'

/-- Python `str.strip()`: drop whitespace from both ends. -/
def pyStrip (s : List Char) : List Char :=
  ((s.dropWhile pyIsSpace).reverse.dropWhile pyIsSpace).reverse

/-- Auxiliary for `pySplitNl`: accumulates the current fragment (reversed). -/
def pySplitNlAux : List Char → List Char → List (List Char)
  | [], acc => [acc.reverse]
  | c :: rest, acc =>
    if c = '\n' then acc.reverse :: pySplitNlAux rest []
    else pySplitNlAux rest (c :: acc)

/-- Python `text.split("\n")`. -/
def pySplitNl (s : List Char) : List (List Char) :=
  pySplitNlAux s []

/-! ### scanner/verdict.py -/

/-- `Verdict` enum of `scanner/verdict.py`. -/
inductive Verdict
  | SAFE
  | QUARANTINE
deriving DecidableEq, Repr

/-- `ScanResult` dataclass of `scanner/verdict.py`.  The `confidence` field is
a float that the analyzer never sets (always `None`); it is omitted here. -/
structure ScanResult where
  verdict : Verdict
  reason : List Char
  rawResponse : Option (List Char)
deriving DecidableEq, Repr

/-! ### scanner/ai_analyzer.py -/

/-- Character class `[a-zA-Z0-9 ,.\-]` of `VERDICT_PATTERN`. -/
def isReasonChar (c : Char) : Bool :=
  c.isAlpha || c.isDigit || c = ' ' || c = ',' || c = '.' || c = '-'

/-- The reason grammar of the spec: 1 to 80 characters over `[A-Za-z0-9 ,.\-]`.
This is exactly the constraint `VERDICT_PATTERN` places on its second group. -/
def reasonGrammar (s : List Char) : Bool :=
  decide (1 ≤ s.length) && decide (s.length ≤ 80) && s.all isReasonChar

/-- `re.match` of `VERDICT_PATTERN = ^(SAFE|QUARANTINE)\|([a-zA-Z0-9 ,.\-]{1,80})$`
against one (already stripped) line: the line must be exactly the verdict word,
a bar, and a reason satisfying the grammar (the bar is outside the reason class,
so the match is unambiguous). -/
def matchVerdictLine (line : List Char) : Option (Verdict × List Char) :=
  if "SAFE|".toList.isPrefixOf line then
    if reasonGrammar (line.drop 5) then some (.SAFE, line.drop 5) else none
  else if "QUARANTINE|".toList.isPrefixOf line then
    if reasonGrammar (line.drop 11) then some (.QUARANTINE, line.drop 11) else none
  else none

/-- The `for line in text.split("\n")` loop of `_parse_response`: return the
first line's match, if any line matches after stripping. -/
def findVerdict : List (List Char) → Option (Verdict × List Char)
  | [] => none
  | l :: rest =>
    match matchVerdictLine (pyStrip l) with
    | some r => some r
    | none => findVerdict rest

/-- `AIAnalyzer._parse_response`: scan the lines of the response; the first line
that matches `VERDICT_PATTERN` after stripping wins; otherwise fail closed with
`QUARANTINE` and reason "Invalid AI response format". -/
def parse_response (text : List Char) : ScanResult :=
  match findVerdict (pySplitNl text) with
  | some (v, reason) => ⟨v, reason, some text⟩
  | none => ⟨.QUARANTINE, "Invalid AI response format".toList, some text⟩

/-- Outcome of `AIAnalyzer._call_api` as observed by `analyze_email`:
either the (stripped) response text, or an `anthropic.APIError` (which includes
the transport timeout/connection errors re-raised after the retries), or any
other exception (e.g. the `ValueError` raised on an unexpected content type). -/
inductive ApiOutcome
  | ok (text : List Char)
  | apiError (e : List Char)
  | otherError (e : List Char)
deriving DecidableEq, Repr

/-- `AIAnalyzer.analyze_email`, as a function of the API call's outcome:
parse the response on success, otherwise fail closed with `QUARANTINE` and a
reason built from the exception text truncated to 40 characters. -/
def analyze_email : ApiOutcome → ScanResult
  | .ok t => parse_response t
  | .apiError e => ⟨.QUARANTINE, "AI API error: ".toList ++ e.take 40, none⟩
  | .otherError e => ⟨.QUARANTINE, "Analysis failed: ".toList ++ e.take 40, none⟩

/-! ### scanner/prompts.py -/

/-- The regex class `[\x00-\x1f\x7f]` of `sanitize_for_prompt`. -/
def isCtrlChar (c : Char) : Bool :=
  c.toNat ≤ 0x1f || c.toNat = 0x7f

/-- The class `[0-9;]` inside the ANSI-escape regex. -/
def isAnsiParamChar (c : Char) : Bool :=
  c.isDigit || c = ';'

/-- Length of a match of `\x1b\[[0-9;]*m` at the head of `s`, if any.  The
character `m` is outside `[0-9;]`, so the greedy star never backtracks and a
match is an ESC, a bracket, a maximal run of digits/semicolons, and an `m`. -/
def ansiMatchLen (s : List Char) : Option Nat :=
  match s with
  | '\x1b' :: '[' :: rest =>
    match rest.drop (rest.takeWhile isAnsiParamChar).length with
    | 'm' :: _ => some ((rest.takeWhile isAnsiParamChar).length + 3)
    | _ => none
  | _ => none

/-- Fuel-driven left-to-right scan for `re.sub(r"\x1b\[[0-9;]*m", "", text)`;
the fuel is an upper bound on the length of the remaining text, and every
step consumes at least one character. -/
def ansiSubAux : Nat → List Char → List Char
  | 0, _ => []
  | _, [] => []
  | fuel + 1, c :: rest =>
    match ansiMatchLen (c :: rest) with
    | some k => ansiSubAux fuel ((c :: rest).drop k)
    | none => c :: ansiSubAux fuel rest

/-- `re.sub(r"\x1b\[[0-9;]*m", "", text)`. -/
def ansiSub (s : List Char) : List Char :=
  ansiSubAux s.length s

/-- Fuel-driven Python `str.replace(pat, "")`: delete the leftmost occurrences
of `pat`, scanning left to right without overlap.  All patterns used by
`sanitize_for_prompt` are non-empty, so every step consumes a character and
the length of the input is enough fuel. -/
def pyReplaceDelAux (pat : List Char) : Nat → List Char → List Char
  | _, [] => []
  | 0, s => s
  | fuel + 1, c :: rest =>
    if pat.isPrefixOf (c :: rest) then pyReplaceDelAux pat fuel ((c :: rest).drop pat.length)
    else c :: pyReplaceDelAux pat fuel rest

/-- Python `s.replace(pat, "")`. -/
def pyReplaceDel (s pat : List Char) : List Char :=
  pyReplaceDelAux pat s.length s

/-- `sanitize_for_prompt(text, max_length)` of `scanner/prompts.py`: remove
ANSI escape codes, then the control characters `[\x00-\x1f\x7f]`, then the
substrings `---`, `===`, and three backticks (in that order, one replace pass
each), then truncate to `max_length` and strip. -/
def sanitize_for_prompt (text : List Char) (maxLength : Nat) : List Char :=
  if text = [] then []
  else
    pyStrip ((pyReplaceDel (pyReplaceDel (pyReplaceDel
      ((ansiSub text).filter fun c => !isCtrlChar c)
        "---".toList) "===".toList) "```".toList).take maxLength)

/-- The five sanitized fields that `build_scan_prompt` interpolates into
`SCAN_PROMPT_TEMPLATE`. -/
structure PromptFields where
  fromAddr : List Char
  toAddr : List Char
  replyTo : List Char
  subject : List Char
  bodyPreview : List Char
deriving DecidableEq, Repr

/-- `build_scan_prompt` of `scanner/prompts.py`, restricted to the sanitized
field values placed in the prompt (the fixed template text carries no input). -/
def build_scan_prompt (fromAddr toAddr : List Char) (replyTo : Option (List Char))
    (subject bodyPreview : List Char) : PromptFields :=
  ⟨sanitize_for_prompt fromAddr 200,
   sanitize_for_prompt toAddr 200,
   sanitize_for_prompt (replyTo.getD []) 200,
   sanitize_for_prompt subject 200,
   sanitize_for_prompt bodyPreview 800⟩

/-- Substring test: does `s` contain `pat` as a contiguous substring? -/
def containsSub (pat s : List Char) : Bool :=
  match s with
  | [] => pat.isPrefixOf ([] : List Char)
  | _ :: rest => pat.isPrefixOf s || containsSub pat rest

/-! ### models/email.py — UTF-8 decoding

Python `bytes.decode("utf-8", errors=...)`: scan left to right; a well-formed
sequence yields its scalar value; an ill-formed maximal subpart (CPython's
error granularity) is handed to the error handler, which drops it for
`errors="ignore"` and emits U+FFFD for `errors="replace"`. -/

/-- UTF-8 continuation byte `0x80..0xbf`. -/
def isContByte (b : Nat) : Bool :=
  0x80 ≤ b && b ≤ 0xbf

/-- Admissible second byte after a three-byte lead (excludes overlong `E0 80..9F`
and the surrogate range `ED A0..BF`). -/
def utf8Snd3Ok (b b1 : Nat) : Bool :=
  if b = 0xe0 then 0xa0 ≤ b1 && b1 ≤ 0xbf
  else if b = 0xed then 0x80 ≤ b1 && b1 ≤ 0x9f
  else isContByte b1

/-- Admissible second byte after a four-byte lead (excludes overlong `F0 80..8F`
and the beyond-U+10FFFF range `F4 90..BF`). -/
def utf8Snd4Ok (b b1 : Nat) : Bool :=
  if b = 0xf0 then 0x90 ≤ b1 && b1 ≤ 0xbf
  else if b = 0xf4 then 0x80 ≤ b1 && b1 ≤ 0x8f
  else isContByte b1

/-- Decode one unit at the head of the byte list: `(some c, k)` consumes the
`k` bytes of a well-formed sequence, `(none, k)` consumes the `k ≥ 1` bytes of
an ill-formed maximal subpart. -/
def utf8DecodeStep : List Nat → Option Char × Nat
  | [] => (none, 1)
  | b :: rest =>
    if b < 0x80 then (some (Char.ofNat b), 1)
    else if 0xc2 ≤ b && b ≤ 0xdf then
      match rest with
      | b1 :: _ =>
        if isContByte b1 then (some (Char.ofNat ((b - 0xc0) * 64 + (b1 - 0x80))), 2)
        else (none, 1)
      | [] => (none, 1)
    else if 0xe0 ≤ b && b ≤ 0xef then
      match rest with
      | b1 :: rest1 =>
        if utf8Snd3Ok b b1 then
          match rest1 with
          | b2 :: _ =>
            if isContByte b2 then
              (some (Char.ofNat ((b - 0xe0) * 4096 + (b1 - 0x80) * 64 + (b2 - 0x80))), 3)
            else (none, 2)
          | [] => (none, 2)
        else (none, 1)
      | [] => (none, 1)
    else if 0xf0 ≤ b && b ≤ 0xf4 then
      match rest with
      | b1 :: rest1 =>
        if utf8Snd4Ok b b1 then
          match rest1 with
          | b2 :: rest2 =>
            if isContByte b2 then
              match rest2 with
              | b3 :: _ =>
                if isContByte b3 then
                  (some (Char.ofNat ((b - 0xf0) * 262144 + (b1 - 0x80) * 4096 +
                    (b2 - 0x80) * 64 + (b3 - 0x80))), 4)
                else (none, 3)
              | [] => (none, 3)
            else (none, 2)
          | [] => (none, 2)
        else (none, 1)
      | [] => (none, 1)
    else (none, 1)

/-- Fuel-driven decode loop; `rep` is what the error handler emits per
ill-formed subpart.  Every step consumes at least one byte, so the byte count
is enough fuel. -/
def utf8DecodeAux (rep : List Char) : Nat → List Nat → List Char
  | 0, _ => []
  | _, [] => []
  | fuel + 1, s =>
    match utf8DecodeStep s with
    | (some c, k) => c :: utf8DecodeAux rep fuel (s.drop k)
    | (none, k) => rep ++ utf8DecodeAux rep fuel (s.drop k)

/-- Python `bytes.decode("utf-8", errors="ignore")`. -/
def pyDecodeUtf8Ignore (s : List Nat) : List Char :=
  utf8DecodeAux [] s.length s

/-- Python `bytes.decode("utf-8", errors="replace")`. -/
def pyDecodeUtf8Replace (s : List Nat) : List Char :=
  utf8DecodeAux [Char.ofNat 0xfffd] s.length s

/-! ### models/email.py — message structure and `ParsedEmail.parse` -/

mutual
/-- An `email.message.Message` as `ParsedEmail.parse` consumes it: a leaf part
with a content type and the result of `get_payload(decode=True)` (`none` when
that is not a byte sequence), or a multipart container with subtype `st`
(content type `multipart/<st>`) and child parts. -/
inductive EmailPart
  | leaf (contentType : String) (payload : Option (List Nat))
  | multi (subtype : String) (parts : PartList)
/-- The list of child parts of a multipart container. -/
inductive PartList
  | nil
  | cons (p : EmailPart) (ps : PartList)
end

/-- `PartList` concatenation (used only to state theorems about part order). -/
def plAppend : PartList → PartList → PartList
  | .nil, q => q
  | .cons p ps, q => .cons p (plAppend ps q)

mutual
/-- `Message.walk()`: the part itself, then every subpart depth-first. -/
def walk : EmailPart → List EmailPart
  | .leaf ct p => [.leaf ct p]
  | .multi st parts => .multi st parts :: walkList parts
/-- `walk` mapped over a part list, concatenated in order. -/
def walkList : PartList → List EmailPart
  | .nil => []
  | .cons p ps => walk p ++ walkList ps
end

/-- `Message.get_content_type()`. -/
def get_content_type : EmailPart → String
  | .leaf ct _ => ct
  | .multi st _ => "multipart/" ++ st

/-- `Message.get_payload(decode=True)` viewed as bytes-or-not: a multipart
container's payload is a list of sub-messages, which decodes to `None`. -/
def get_payload_decode : EmailPart → Option (List Nat)
  | .leaf _ p => p
  | .multi _ _ => none

/-- `Message.is_multipart()`. -/
def isMultipartB : EmailPart → Bool
  | .leaf _ _ => false
  | .multi _ _ => true

/-- The `body` computation of `ParsedEmail.parse`: on a multipart message,
walk the parts and stop at the first `text/plain` one; if its decoded payload
is bytes, decode UTF-8 ignoring errors and keep the first 800 characters;
otherwise (or with no `text/plain` part) the body stays `""`.  On a
single-part message, decode the only payload the same way. -/
def extract_body (msg : EmailPart) : List Char :=
  if isMultipartB msg then
    match (walk msg).find? (fun p => get_content_type p == "text/plain") with
    | some p =>
      match get_payload_decode p with
      | some bytes => (pyDecodeUtf8Ignore bytes).take 800
      | none => []
    | none => []
  else
    match get_payload_decode msg with
    | some bytes => (pyDecodeUtf8Ignore bytes).take 800
    | none => []

/-- Python `body.replace("\n", " ")`. -/
def nlToSpace (s : List Char) : List Char :=
  s.map fun c => if c = '\n' then ' ' else c

/-- The `body_preview` field built by `ParsedEmail.parse`:
`body.replace("\n", " ").strip()`. -/
def body_preview (msg : EmailPart) : List Char :=
  pyStrip (nlToSpace (extract_body msg))

/-- The body-preview pipeline in the spec's words (claim C7), for comparison
with `body_preview`: take the first 800 BYTES of the selected payload, decode
them as UTF-8 with replacement characters, collapse newlines, strip. -/
def body_preview_spec (payload : List Nat) : List Char :=
  pyStrip (nlToSpace (pyDecodeUtf8Replace (payload.take 800)))

/-! ### transport/maildir.py -/

/-- Split a filename at its last dot: `splitLastDot s = (stem, suffix)` with
`suffix` either `[]` (no dot in `s`) or a dot followed by the dot-free tail.
This is `pathlib`'s stem/suffix split for the names this program generates
(`<microseconds>.<hex16>.<hostname>` plus a state suffix); the `pathlib`
corner cases for dot-initial or dot-final names cannot arise for them. -/
def splitLastDot (s : List Char) : List Char × List Char :=
  let r := s.reverse.takeWhile fun c => c ≠ '.'
  if r.length = s.length then (s, [])
  else (s.take (s.length - r.length - 1), '.' :: r.reverse)

/-- `pathlib.Path(name).suffix`. -/
def lastSuffix (s : List Char) : List Char :=
  (splitLastDot s).2

/-- `pathlib.Path(name).with_suffix(newSuffix)`. -/
def withSuffix (s newSuffix : List Char) : List Char :=
  (splitLastDot s).1 ++ newSuffix

/-- One directory entry as `MaildirManager.get_staging_emails` observes it:
its name, whether it is a regular file, whether the atomic rename to
`.processing` succeeds (`false` models the `FileNotFoundError` of a lost
race), and whether the subsequent read succeeds, with the bytes read. -/
structure StagingEntry where
  name : List Char
  isFile : Bool
  renameOk : Bool
  readOk : Bool
  content : List Nat

/-- `MaildirManager.get_staging_emails`: keep the regular files with suffix
`.mail`; claim each by renaming it to `.processing` (skipping entries whose
rename or read fails); return the claimed `.processing` names with the bytes
read. -/
def get_staging_emails (entries : List StagingEntry) : List (List Char × List Nat) :=
  entries.filterMap fun e =>
    if e.isFile && (lastSuffix e.name == ".mail".toList) then
      if e.renameOk then
        if e.readOk then some (withSuffix e.name ".processing".toList, e.content)
        else none
      else none
    else none

/-- `MaildirManager.restore_to_staging`: the rename target
`processing_path.with_suffix(".mail")`. -/
def restore_filename (processingName : List Char) : List Char :=
  withSuffix processingName ".mail".toList

/-! ### services/mail_processor.py — fetch phase of `_process_cycle` -/

/-- Outcome of `maildir.save_to_staging(raw_email)` for one message: the
generated base name (the saved filename is `base ++ ".mail"`), or the
`DeliveryError` it raises (size mismatch or I/O failure). -/
inductive SaveOutcome
  | ok (base : List Char)
  | raises (err : List Char)
deriving DecidableEq, Repr

/-- Outcome of `imap.delete_message(msg_id)`. -/
inductive DeleteOutcome
  | ok
  | raises (err : List Char)
deriving DecidableEq, Repr

/-- One message yielded by `fetch_new_messages` in `_process_cycle`, together
with the outcomes of the save and delete calls made for it. -/
structure FetchedItem where
  uid : List Char
  raw : List Nat
  save : SaveOutcome
  del : DeleteOutcome

/-- Externally visible events of the fetch phase, in program order. -/
inductive CycleEvent
  | savedToStaging (uid : List Char) (filename : List Char)
  | deleteInvoked (uid : List Char)
  | processEmail (uid : List Char) (filename : List Char)
deriving DecidableEq, Repr

/-- The body of the `async for` loop of `_process_cycle` for one message:
if `save_to_staging` raises, log and `continue` (no delete, no processing);
otherwise record the verified save, invoke the upstream delete (its own
failure is logged and processing continues), and process the staged email
under the saved `.mail` filename. -/
def process_fetched_item (it : FetchedItem) : List CycleEvent :=
  match it.save with
  | .raises _ => []
  | .ok base =>
    [.savedToStaging it.uid (base ++ ".mail".toList),
     .deleteInvoked it.uid,
     .processEmail it.uid (base ++ ".mail".toList)]

/-- The fetch phase of `_process_cycle` over the sequence the fetch iterator
yields (with no shutdown request). -/
def process_cycle_fetch : List FetchedItem → List CycleEvent
  | [] => []
  | it :: rest => process_fetched_item it ++ process_cycle_fetch rest

/-- The staging filenames under which `_process_email` is invoked during one
cycle: first the drained claims of `_process_staging`, then the freshly
fetched items. -/
def cycle_processed_filenames (staged : List StagingEntry) (fetched : List FetchedItem) :
    List (List Char) :=
  (get_staging_emails staged).map Prod.fst ++
    (process_cycle_fetch fetched).filterMap fun e =>
      match e with
      | .processEmail _ fn => some fn
      | _ => none

/-! ### services/mail_processor.py — retry accounting -/

/-- The in-memory `_retry_counts` dict (keys are unique in a Python dict). -/
abbrev RetryCounts := List (List Char × Nat)

/-- `self._retry_counts.get(message_id, 0)`. -/
def getRetry : RetryCounts → List Char → Nat
  | [], _ => 0
  | (k, v) :: rest, mid => if k = mid then v else getRetry rest mid

/-- `self._retry_counts[message_id] = n`. -/
def setRetry : RetryCounts → List Char → Nat → RetryCounts
  | [], mid, n => [(mid, n)]
  | (k, v) :: rest, mid, n =>
    if k = mid then (k, n) :: rest else (k, v) :: setRetry rest mid n

/-- `self._retry_counts.pop(message_id, None)`. -/
def popRetry : RetryCounts → List Char → RetryCounts
  | [], _ => []
  | (k, v) :: rest, mid => if k = mid then rest else (k, v) :: popRetry rest mid

/-- `MailProcessor._increment_retry`: bump the count and return it. -/
def increment_retry (m : RetryCounts) (mid : List Char) : RetryCounts × Nat :=
  (setRetry m mid (getRetry m mid + 1), getRetry m mid + 1)

/-- `MailProcessor._clear_retry`. -/
def clear_retry (m : RetryCounts) (mid : List Char) : RetryCounts :=
  popRetry m mid

/-- Maildir side effects of the delivery path, in program order. -/
inductive MailAction
  | archiveDelivered
  | removeFromStaging (filename : List Char)
  | moveToFailed (reason : List Char)
  | restoreToStaging (filename : List Char)
deriving DecidableEq, Repr

/-- `MailProcessor._handle_delivery_failure`: increment the retry count; at or
above `max_retries` move the message to `.failed`, clear the retry entry and
report handled (`true`); otherwise report retry-later (`false`). -/
def handle_delivery_failure (m : RetryCounts) (mid : List Char) (maxRetries : Nat)
    (reason : List Char) : RetryCounts × Bool × List MailAction :=
  let r := increment_retry m mid
  if maxRetries ≤ r.2 then
    (clear_retry r.1 mid, true,
      [.moveToFailed ("Max retries (".toList ++ Nat.toDigits 10 r.2 ++ "): ".toList ++ reason)])
  else (r.1, false, [])

/-- Outcome of `lmtp.deliver` as `_deliver_with_retry` observes it: returned
`True`, returned `False` (temporary failure), or raised `DeliveryError`
(permanent failure). -/
inductive DeliveryOutcome
  | success
  | temporaryFailure
  | permanentFailure (msg : List Char)
deriving DecidableEq, Repr

/-- `MailProcessor._deliver_with_retry`: on success archive and clear the
retry entry; on either failure hand over to `_handle_delivery_failure`. -/
def deliver_with_retry (m : RetryCounts) (mid : List Char) (maxRetries : Nat) :
    DeliveryOutcome → RetryCounts × Bool × List MailAction
  | .success => (clear_retry m mid, true, [.archiveDelivered])
  | .temporaryFailure => handle_delivery_failure m mid maxRetries "LMTP temporary failure".toList
  | .permanentFailure msg => handle_delivery_failure m mid maxRetries msg

/-- The SAFE-verdict delivery branch of `MailProcessor._process_email`: after
`_deliver_with_retry`, either remove the staging file (delivered, or moved to
`.failed`) or, when the staging filename ends in `.processing`, restore it to
`.mail` for the next cycle. -/
def process_email_deliver (m : RetryCounts) (mid : List Char) (maxRetries : Nat)
    (outcome : DeliveryOutcome) (stagingFilename : List Char) :
    RetryCounts × List MailAction :=
  let r := deliver_with_retry m mid maxRetries outcome
  if r.2.1 then (r.1, r.2.2 ++ [.removeFromStaging stagingFilename])
  else if ".processing".toList.isSuffixOf stagingFilename then
    (r.1, r.2.2 ++ [.restoreToStaging stagingFilename])
  else (r.1, r.2.2)

/-- Repeated delivery failures for one `message_id`, starting from an empty
retry map: the state after `k` failed attempts of the current process. -/
def iterate_failures (mid : List Char) (maxRetries : Nat) (reason : List Char) :
    Nat → RetryCounts × Bool × List MailAction
  | 0 => ([], false, [])
  | k + 1 =>
    handle_delivery_failure (iterate_failures mid maxRetries reason k).1 mid maxRetries reason

/-! ### Lemmas about the verdict parser -/

theorem matchVerdictLine_grammar {l : List Char} {v : Verdict} {r : List Char}
    (h : matchVerdictLine l = some (v, r)) : reasonGrammar r = true := by
  unfold matchVerdictLine at h
  split at h
  · split at h
    · simp_all
    · exact absurd h (by simp)
  · split at h
    · split at h
      · simp_all
      · exact absurd h (by simp)
    · exact absurd h (by simp)

theorem findVerdict_eq_none {ls : List (List Char)}
    (h : (ls.all fun l => (matchVerdictLine (pyStrip l)).isNone) = true) :
    findVerdict ls = none := by
  induction ls with
  | nil => rfl
  | cons l rest ih =>
    simp only [List.all_cons, Bool.and_eq_true] at h
    unfold findVerdict
    rcases hm : matchVerdictLine (pyStrip l) with _ | r
    · exact ih h.2
    · rw [hm] at h; simp at h

theorem findVerdict_eq_some {ls : List (List Char)} {v : Verdict} {r : List Char}
    (h : findVerdict ls = some (v, r)) :
    ∃ l ∈ ls, matchVerdictLine (pyStrip l) = some (v, r) := by
  induction ls with
  | nil => simp [findVerdict] at h
  | cons l rest ih =>
    unfold findVerdict at h
    rcases hm : matchVerdictLine (pyStrip l) with _ | p
    · rw [hm] at h
      obtain ⟨l', hl', hm'⟩ := ih h
      exact ⟨l', List.mem_cons_of_mem _ hl', hm'⟩
    · rw [hm] at h
      simp only [Option.some.injEq] at h
      exact ⟨l, List.mem_cons_self _ _, by rw [hm, h]⟩

/-! ### Claim C2 -/

/-- C2: fail-closed classification.  If no line of the judge's response matches
the verdict pattern after trimming, `analyze_email` returns `QUARANTINE` with
reason "Invalid AI response format"; every error arising from the judge call
(API errors, including transport errors, and any other exception) also yields
`QUARANTINE`; and a `SAFE` result can only arise from a response one of whose
lines matches the pattern with the SAFE verdict. -/
theorem c2_fail_closed :
    (∀ t : List Char,
        ((pySplitNl t).all fun l => (matchVerdictLine (pyStrip l)).isNone) = true →
        analyze_email (.ok t) =
          ⟨.QUARANTINE, "Invalid AI response format".toList, some t⟩) ∧
    (∀ e, (analyze_email (.apiError e)).verdict = .QUARANTINE) ∧
    (∀ e, (analyze_email (.otherError e)).verdict = .QUARANTINE) ∧
    (∀ o, (analyze_email o).verdict = .SAFE →
        ∃ t, o = .ok t ∧ ∃ l ∈ pySplitNl t, ∃ r,
          matchVerdictLine (pyStrip l) = some (.SAFE, r)) := by
  refine ⟨fun t h => ?_, fun e => rfl, fun e => rfl, fun o h => ?_⟩
  · simp only [analyze_email, parse_response, findVerdict_eq_none h]
  · match o with
    | .apiError e => simp [analyze_email] at h
    | .otherError e => simp [analyze_email] at h
    | .ok t =>
      refine ⟨t, rfl, ?_⟩
      simp only [analyze_email, parse_response] at h
      rcases hf : findVerdict (pySplitNl t) with _ | ⟨v, r⟩
      · rw [hf] at h; simp at h
      · rw [hf] at h
        simp only at h
        obtain ⟨l, hl, hm⟩ := findVerdict_eq_some hf
        exact ⟨l, hl, r, by rw [hm, h]⟩

/-- Witness for C2 at concrete inputs: the malformed response of scenario 5
fails closed, and a SAFE result exhibits a matching SAFE line. -/
theorem c2_fail_closed_witness :
    (analyze_email (.ok "I think this is probably fine.".toList) =
      ⟨.QUARANTINE, "Invalid AI response format".toList,
        some "I think this is probably fine.".toList⟩) ∧
    (∃ t, (ApiOutcome.ok "SAFE|Legitimate newsletter".toList) = .ok t ∧
      ∃ l ∈ pySplitNl t, ∃ r, matchVerdictLine (pyStrip l) = some (.SAFE, r)) :=
  ⟨c2_fail_closed.1 _ (by decide),
   c2_fail_closed.2.2.2 (.ok "SAFE|Legitimate newsletter".toList) (by decide)⟩

/-! ### Lemmas about sanitization -/

theorem mem_pyStrip {c : Char} {s : List Char} (h : c ∈ pyStrip s) : c ∈ s := by
  unfold pyStrip at h
  rw [List.mem_reverse] at h
  have h1 := (List.dropWhile_sublist (p := pyIsSpace)).subset h
  rw [List.mem_reverse] at h1
  exact (List.dropWhile_sublist (p := pyIsSpace)).subset h1

theorem pyStrip_length_le (s : List Char) : (pyStrip s).length ≤ s.length := by
  unfold pyStrip
  have h1 := (List.dropWhile_sublist (p := pyIsSpace)
    (l := (s.dropWhile pyIsSpace).reverse)).length_le
  have h2 := (List.dropWhile_sublist (p := pyIsSpace) (l := s)).length_le
  simp only [List.length_reverse] at h1 ⊢
  omega

theorem mem_ansiSubAux {c : Char} :
    ∀ {fuel : Nat} {s : List Char}, c ∈ ansiSubAux fuel s → c ∈ s := by
  intro fuel
  induction fuel with
  | zero => intro s h; simp [ansiSubAux] at h
  | succ n ih =>
    intro s h
    match s with
    | [] => simp [ansiSubAux] at h
    | d :: rest =>
      unfold ansiSubAux at h
      rcases hm : ansiMatchLen (d :: rest) with _ | k <;> rw [hm] at h
      · rcases List.mem_cons.mp h with h | h
        · exact h ▸ List.mem_cons_self _ _
        · exact List.mem_cons_of_mem _ (ih h)
      · exact List.mem_of_mem_drop (ih h)

theorem mem_pyReplaceDelAux {c : Char} {pat : List Char} :
    ∀ {fuel : Nat} {s : List Char}, c ∈ pyReplaceDelAux pat fuel s → c ∈ s := by
  intro fuel
  induction fuel with
  | zero =>
    intro s h
    match s with
    | [] => simp [pyReplaceDelAux] at h
    | d :: rest => exact h
  | succ n ih =>
    intro s h
    match s with
    | [] => simp [pyReplaceDelAux] at h
    | d :: rest =>
      unfold pyReplaceDelAux at h
      split at h
      · exact List.mem_of_mem_drop (ih h)
      · rcases List.mem_cons.mp h with h | h
        · exact h ▸ List.mem_cons_self _ _
        · exact List.mem_cons_of_mem _ (ih h)

theorem mem_sanitize_not_ctrl {c : Char} {text : List Char} {maxLength : Nat}
    (h : c ∈ sanitize_for_prompt text maxLength) : isCtrlChar c = false := by
  unfold sanitize_for_prompt at h
  split at h
  · simp at h
  · have h1 := mem_pyStrip h
    have h2 := List.mem_of_mem_take h1
    have h3 := mem_pyReplaceDelAux (mem_pyReplaceDelAux (mem_pyReplaceDelAux h2))
    have h4 := List.of_mem_filter h3
    simp only [Bool.not_eq_true'] at h4
    exact h4

/-! ### transport/lmtp_client.py -/

/-- A Python exception as `LMTPDelivery.deliver`'s handlers distinguish them:
the project's own `DeliveryError` (a plain `PostalInspectorError`, NOT an
`aiosmtplib.SMTPResponseException`), an `aiosmtplib.SMTPResponseException`
carrying a status code, or any other exception (I/O errors, timeouts,
`SMTPServerDisconnected`, ...). -/
inductive PyExc
  | deliveryError (msg : List Char)
  | smtpResponseException (code : Nat) (msg : List Char)
  | otherException (msg : List Char)
deriving DecidableEq, Repr

/-- Result of one dialogue step (`execute_command` / `read_response`): the
parsed status code and message, or an exception raised by the library.
`aiosmtplib.execute_command` returns error status codes (4xx/5xx) as values
rather than raising on them. -/
inductive StepResult
  | code (n : Nat) (msg : List Char)
  | raises (e : PyExc)
deriving DecidableEq, Repr

/-- The server-side behaviour `deliver` encounters, step by step: the outcome
of `client.connect()`, of the LHLO / MAIL FROM / RCPT TO / DATA commands, of
the raw `transport.write`, and of the final `read_response` after the data. -/
structure LmtpScript where
  connect : Option PyExc
  lhlo : StepResult
  mailFrom : StepResult
  rcptTo : StepResult
  dataCmd : StepResult
  writeErr : Option (List Char)
  finalResp : StepResult
deriving DecidableEq, Repr

/-- Run one dialogue step inside the `try` block. -/
def runStep : StepResult → Except PyExc (Nat × List Char)
  | .code n msg => .ok (n, msg)
  | .raises e => .error e

/-- The `try` block of `LMTPDelivery.deliver`: connect, LHLO (expect 220 or
250), `MAIL FROM:<>` (expect 250), `RCPT TO` (expect 250 or 251), `DATA`
(expect 354), raw write of the dot-terminated message, final response (expect
250 or 251); each unexpected code raises the project's `DeliveryError`.
The terminating `quit` is wrapped in its own try/except and never raises. -/
def deliverBody (s : LmtpScript) : Except PyExc Bool :=
  match s.connect with
  | some e => .error e
  | none =>
    match runStep s.lhlo with
    | .error e => .error e
    | .ok r1 =>
      if r1.1 ≠ 220 ∧ r1.1 ≠ 250 then .error (.deliveryError "LHLO failed".toList)
      else
        match runStep s.mailFrom with
        | .error e => .error e
        | .ok r2 =>
          if r2.1 ≠ 250 then .error (.deliveryError "MAIL FROM failed".toList)
          else
            match runStep s.rcptTo with
            | .error e => .error e
            | .ok r3 =>
              if r3.1 ≠ 250 ∧ r3.1 ≠ 251 then
                .error (.deliveryError "RCPT TO failed".toList)
              else
                match runStep s.dataCmd with
                | .error e => .error e
                | .ok r4 =>
                  if r4.1 ≠ 354 then .error (.deliveryError "DATA failed".toList)
                  else
                    match s.writeErr with
                    | some e => .error (.otherException e)
                    | none =>
                      match runStep s.finalResp with
                      | .error e => .error e
                      | .ok r5 =>
                        if r5.1 ≠ 250 ∧ r5.1 ≠ 251 then
                          .error (.deliveryError "Message delivery failed".toList)
                        else .ok true

/-- What `deliver` does as observed by its caller. -/
inductive DeliverResult
  | returned (b : Bool)
  | raised (e : PyExc)
deriving DecidableEq, Repr

/-- `LMTPDelivery.deliver`: run the dialogue; an
`aiosmtplib.SMTPResponseException` with code ≥ 500 is converted to a raised
`DeliveryError`, one with a smaller code returns `False`; EVERY other
exception — including the `DeliveryError`s raised inside the `try` block on
unexpected status codes — is caught by the blanket `except Exception` and
returns `False`. -/
def deliver (s : LmtpScript) : DeliverResult :=
  match deliverBody s with
  | .ok b => .returned b
  | .error (.smtpResponseException c _) =>
    if 500 ≤ c then .raised (.deliveryError ("LMTP permanent failure".toList))
    else .returned false
  | .error _ => .returned false

/-- An entirely successful dialogue up to the final post-data response. -/
def scriptWithFinal (f : StepResult) : LmtpScript :=
  ⟨none, .code 250 [], .code 250 [], .code 250 [], .code 354 [], none, f⟩

/-! ### transport/imap_client.py -/

/-- Outcome of `self._client.fetch(msg_id, "(RFC822)")` for one UID, as the
loop body of `fetch_new_messages` distinguishes them: a well-formed response
(`status == "OK"`, payload list of length ≥ 2 with bytes at index 1), a
response that is not well-formed (wrong status, short or non-bytes payload),
or an exception. -/
inductive FetchRes
  | wellformed (raw : List Nat)
  | badData
  | raisesF (err : List Char)
deriving DecidableEq, Repr

/-- The per-UID loop of `IMAPFetcher.fetch_new_messages` over the UIDs that
`SEARCH ALL` returned: a fetch exception is logged and the loop continues; a
response that is not well-formed falls through to the next UID; a well-formed
response is yielded — and then the loop executes `break`, ending the
generator. -/
def fetch_new_messages : List (List Char × FetchRes) → List (List Char × List Nat)
  | [] => []
  | (uid, r) :: rest =>
    match r with
    | .wellformed raw => [(uid, raw)]
    | .badData => fetch_new_messages rest
    | .raisesF _ => fetch_new_messages rest

/-! ### Lemmas about suffixes and the retry map -/

theorem isSuffixOf_append (pre pat : List Char) : pat.isSuffixOf (pre ++ pat) = true := by
  rw [List.isSuffixOf_iff_suffix]
  exact List.suffix_append pre pat

theorem getRetry_setRetry (m : RetryCounts) (mid : List Char) (n : Nat) :
    getRetry (setRetry m mid n) mid = n := by
  induction m with
  | nil => simp [setRetry, getRetry]
  | cons kv rest ih =>
    obtain ⟨k, v⟩ := kv
    by_cases h : k = mid
    · simp [setRetry, getRetry, h]
    · simp [setRetry, getRetry, h, ih]

theorem getRetry_eq_zero_of_not_mem {m : RetryCounts} {mid : List Char}
    (h : mid ∉ m.map Prod.fst) : getRetry m mid = 0 := by
  induction m with
  | nil => rfl
  | cons kv rest ih =>
    obtain ⟨k, v⟩ := kv
    simp only [List.map_cons, List.mem_cons] at h
    push_neg at h
    have hk : ¬(k = mid) := fun hk => h.1 hk.symm
    simp [getRetry, hk, ih h.2]

theorem mem_keys_setRetry {m : RetryCounts} {mid x : List Char} {n : Nat}
    (h : x ∈ (setRetry m mid n).map Prod.fst) : x ∈ m.map Prod.fst ∨ x = mid := by
  induction m with
  | nil => simpa [setRetry] using h
  | cons kv rest ih =>
    obtain ⟨k, v⟩ := kv
    by_cases hk : k = mid
    · simp only [setRetry, if_pos hk, List.map_cons, List.mem_cons] at h
      rcases h with h | h
      · exact Or.inl (by simp [h])
      · exact Or.inl (by simp [h])
    · simp only [setRetry, if_neg hk, List.map_cons, List.mem_cons] at h
      rcases h with h | h
      · exact Or.inl (by simp [h])
      · rcases ih h with h' | h'
        · exact Or.inl (by simp [h'])
        · exact Or.inr h'

theorem nodup_keys_setRetry {m : RetryCounts} {mid : List Char} {n : Nat}
    (h : (m.map Prod.fst).Nodup) : ((setRetry m mid n).map Prod.fst).Nodup := by
  induction m with
  | nil => simp [setRetry]
  | cons kv rest ih =>
    obtain ⟨k, v⟩ := kv
    simp only [List.map_cons, List.nodup_cons] at h
    by_cases hk : k = mid
    · simp only [setRetry, if_pos hk, List.map_cons, List.nodup_cons]
      exact ⟨h.1, h.2⟩
    · simp only [setRetry, if_neg hk, List.map_cons, List.nodup_cons]
      refine ⟨fun hmem => ?_, ih h.2⟩
      rcases mem_keys_setRetry hmem with h' | h'
      · exact h.1 h'
      · exact hk h'

theorem getRetry_popRetry {m : RetryCounts} {mid : List Char}
    (h : (m.map Prod.fst).Nodup) : getRetry (popRetry m mid) mid = 0 := by
  induction m with
  | nil => rfl
  | cons kv rest ih =>
    obtain ⟨k, v⟩ := kv
    simp only [List.map_cons, List.nodup_cons] at h
    by_cases hk : k = mid
    · rw [popRetry, if_pos hk]
      exact getRetry_eq_zero_of_not_mem (hk ▸ h.1)
    · rw [popRetry, if_neg hk, getRetry, if_neg hk]
      exact ih h.2

/-! ### Claim C1 -/

/-- C1: in the fetch phase of `_process_cycle`, the upstream delete for a
message is invoked only after `save_to_staging` has returned success for that
message (a size-verified local copy exists); when `save_to_staging` raises,
the message is skipped entirely — no upstream delete is attempted for it and
no processing happens. -/
theorem c1_delete_after_save :
    (∀ (items : List FetchedItem) (k : Nat) (u : List Char),
      (process_cycle_fetch items).get? k = some (.deleteInvoked u) →
      ∃ j fn, j < k ∧
        (process_cycle_fetch items).get? j = some (.savedToStaging u fn)) ∧
    (∀ (it : FetchedItem) (e : List Char), it.save = .raises e →
      process_fetched_item it = []) := by
  constructor
  · intro items
    induction items with
    | nil => intro k u h; simp [process_cycle_fetch] at h
    | cons it rest ih =>
      intro k u h
      rw [process_cycle_fetch] at h
      rcases hs : it.save with base | e
      · simp only [process_fetched_item, hs, List.cons_append, List.nil_append] at h
        rcases k with _ | _ | _ | k
        · simp [List.get?] at h
        · simp only [List.get?, Option.some.injEq, CycleEvent.deleteInvoked.injEq] at h
          subst h
          exact ⟨0, base ++ ".mail".toList, by omega, by
            simp [process_cycle_fetch, process_fetched_item, hs, List.get?]⟩
        · simp [List.get?] at h
        · simp only [List.get?] at h
          obtain ⟨j, fn, hj, hsv⟩ := ih k u h
          refine ⟨j + 3, fn, by omega, ?_⟩
          simp only [process_cycle_fetch, process_fetched_item, hs, List.cons_append,
            List.nil_append, List.get?]
          exact hsv
      · simp only [process_fetched_item, hs, List.nil_append] at h
        obtain ⟨j, fn, hj, hsv⟩ := ih k u h
        refine ⟨j, fn, hj, ?_⟩
        simp only [process_cycle_fetch, process_fetched_item, hs, List.nil_append]
        exact hsv
  · intro it e hs
    simp [process_fetched_item, hs]

/-- Witness for C1 at concrete inputs: one successfully saved message whose
delete at trace position 1 is preceded by its save at position 0, and one
message whose save raises and which produces no events at all. -/
theorem c1_delete_after_save_witness :
    (∃ j fn, j < 1 ∧
      (process_cycle_fetch [⟨"7".toList, [65], .ok "b".toList, .ok⟩]).get? j =
        some (.savedToStaging "7".toList fn)) ∧
    process_fetched_item ⟨"8".toList, [66], .raises "io error".toList, .ok⟩ = [] :=
  ⟨c1_delete_after_save.1 _ 1 "7".toList (by decide),
   c1_delete_after_save.2 _ "io error".toList rfl⟩

/-! ### Claim C6 -/

/-- C6 fails on the code: a freshly fetched message is processed directly
under the `.mail` filename returned by `save_to_staging`; only the drained
staging items of `_process_staging` are admitted through the rename to
`.processing`. -/
theorem c6_counterexample :
    cycle_processed_filenames []
        [⟨"7".toList, [65], .ok "1700.abc.host".toList, .ok⟩] =
      ["1700.abc.host.mail".toList] ∧
    ".processing".toList.isSuffixOf "1700.abc.host.mail".toList = false := by
  decide

/-- C6 (amended): drained staging items are admitted to per-item processing
only through the atomic `.mail` → `.processing` rename, so every drained
item's filename carries the `.processing` suffix; freshly fetched items are
processed immediately under the `.mail` filename that `save_to_staging`
returned, without a rename. -/
theorem c6_admission (staged : List StagingEntry) (fetched : List FetchedItem) :
    (∀ fn ∈ (get_staging_emails staged).map Prod.fst,
      ".processing".toList.isSuffixOf fn = true) ∧
    (∀ uid fn, CycleEvent.processEmail uid fn ∈ process_cycle_fetch fetched →
      ".mail".toList.isSuffixOf fn = true) := by
  constructor
  · intro fn hfn
    obtain ⟨⟨fn', content⟩, hmem, hfst⟩ := List.mem_map.mp hfn
    obtain ⟨e, _, he⟩ := List.mem_filterMap.mp hmem
    simp only at hfst
    split at he
    · split at he
      · split at he
        · simp only [Option.some.injEq, Prod.mk.injEq] at he
          rw [← hfst, ← he.1, withSuffix]
          exact isSuffixOf_append _ _
        · exact absurd he (by simp)
      · exact absurd he (by simp)
    · exact absurd he (by simp)
  · intro uid fn hmem
    induction fetched with
    | nil => simp [process_cycle_fetch] at hmem
    | cons it rest ih =>
      rw [process_cycle_fetch, List.mem_append] at hmem
      rcases hmem with hmem | hmem
      · rcases hs : it.save with base | e
        · simp only [process_fetched_item, hs, List.mem_cons, List.not_mem_nil,
            or_false] at hmem
          rcases hmem with h | h | h
          · exact absurd h (by simp)
          · exact absurd h (by simp)
          · rw [CycleEvent.processEmail.injEq] at h
            rw [h.2]
            exact isSuffixOf_append _ _
        · rw [process_fetched_item, hs] at hmem
          simp at hmem
      · exact ih hmem

/-- Witness for C6 at concrete inputs: a drained staging entry `a.mail` is
processed as `a.processing`, and a freshly fetched message saved under base
`b` is processed as `b.mail`. -/
theorem c6_admission_witness :
    ".processing".toList.isSuffixOf "a.processing".toList = true ∧
    ".mail".toList.isSuffixOf "b.mail".toList = true :=
  ⟨(c6_admission [⟨"a.mail".toList, true, true, true, [1]⟩] []).1
      "a.processing".toList (by decide),
   (c6_admission [] [⟨"7".toList, [65], .ok "b".toList, .ok⟩]).2
      "7".toList "b.mail".toList (by decide)⟩

/-! ### Claim C3 -/

/-- C3 fails on the code: the project's `DeliveryError` is not an
`aiosmtplib.SMTPResponseException`, and `execute_command`/`read_response`
return error status codes instead of raising, so the `DeliveryError` raised
inside the `try` block on a 5xx dialogue code is caught by the blanket
`except Exception` and `deliver` RETURNS `False`.  Concretely, a clean
dialogue whose final post-data response is 550 returns `False` instead of
raising; in general every unexpected final code — 5xx included — and every
I/O error yields `returned false`, and a 4xx final code also yields
`returned false` (the part of the claim the code does satisfy). -/
theorem c3_five_xx_swallowed :
    deliver (scriptWithFinal (.code 550 "mailbox unavailable".toList)) =
      .returned false ∧
    (∀ n msg, n ≠ 250 → n ≠ 251 →
      deliver (scriptWithFinal (.code n msg)) = .returned false) ∧
    (∀ msg, deliver (scriptWithFinal (.code 451 msg)) = .returned false) ∧
    (∀ e, deliver (scriptWithFinal (.raises (.otherException e))) =
      .returned false) := by
  refine ⟨by decide, fun n msg hn1 hn2 => ?_, fun msg => rfl, fun e => rfl⟩
  have hb : deliverBody (scriptWithFinal (.code n msg)) =
      .error (.deliveryError "Message delivery failed".toList) := by
    show (if n ≠ 250 ∧ n ≠ 251 then
        (.error (.deliveryError "Message delivery failed".toList) : Except PyExc Bool)
      else .ok true) = _
    rw [if_pos ⟨hn1, hn2⟩]
  simp [deliver, hb]

/-- Witness for C3 at a concrete input: the general non-250/251 final-code
statement applied at code 554. -/
theorem c3_five_xx_swallowed_witness :
    deliver (scriptWithFinal (.code 554 "transaction failed".toList)) =
      .returned false :=
  c3_five_xx_swallowed.2.1 554 "transaction failed".toList (by decide) (by decide)

/-! ### Claim C4 -/

/-- C4 fails on the code: the loop body of `fetch_new_messages` executes
`break` immediately after the first successful yield, so with two fetchable
UIDs only the first is yielded; fetches that fail or return malformed data
are skipped and the loop continues.  In general the generator never yields
more than one message per cycle. -/
theorem c4_break_after_first_yield :
    fetch_new_messages
        [("1".toList, .wellformed [65]), ("2".toList, .wellformed [66])] =
      [("1".toList, [65])] ∧
    fetch_new_messages
        [("1".toList, .raisesF "io".toList), ("2".toList, .wellformed [66])] =
      [("2".toList, [66])] ∧
    (∀ l, (fetch_new_messages l).length ≤ 1) := by
  refine ⟨by decide, by decide, fun l => ?_⟩
  induction l with
  | nil => simp [fetch_new_messages]
  | cons p rest ih =>
    obtain ⟨uid, r⟩ := p
    match r with
    | .wellformed raw => simp [fetch_new_messages]
    | .badData => simpa [fetch_new_messages] using ih
    | .raisesF e => simpa [fetch_new_messages] using ih

/-! ### Claim C5 -/

theorem handle_failure_spec (m : RetryCounts) (mid : List Char) (maxRetries : Nat)
    (reason : List Char) (hnd : (m.map Prod.fst).Nodup) :
    (maxRetries ≤ getRetry m mid + 1 →
      (handle_delivery_failure m mid maxRetries reason).2.1 = true ∧
      getRetry (handle_delivery_failure m mid maxRetries reason).1 mid = 0 ∧
      ∃ r, (handle_delivery_failure m mid maxRetries reason).2.2 = [.moveToFailed r]) ∧
    (getRetry m mid + 1 < maxRetries →
      (handle_delivery_failure m mid maxRetries reason).2.1 = false ∧
      getRetry (handle_delivery_failure m mid maxRetries reason).1 mid =
        getRetry m mid + 1 ∧
      (handle_delivery_failure m mid maxRetries reason).2.2 = []) := by
  constructor
  · intro hle
    have heq : handle_delivery_failure m mid maxRetries reason =
        (clear_retry (setRetry m mid (getRetry m mid + 1)) mid, true,
          [.moveToFailed ("Max retries (".toList ++
            Nat.toDigits 10 (getRetry m mid + 1) ++ "): ".toList ++ reason)]) := by
      rw [handle_delivery_failure]
      simp only [increment_retry]
      rw [if_pos hle]
    rw [heq]
    exact ⟨rfl, getRetry_popRetry (nodup_keys_setRetry hnd), _, rfl⟩
  · intro hlt
    have heq : handle_delivery_failure m mid maxRetries reason =
        (setRetry m mid (getRetry m mid + 1), false, []) := by
      rw [handle_delivery_failure]
      simp only [increment_retry]
      rw [if_neg (by omega : ¬maxRetries ≤ getRetry m mid + 1)]
    rw [heq]
    exact ⟨rfl, getRetry_setRetry m mid _, rfl⟩

theorem iterate_failures_below (mid reason : List Char) (maxRetries : Nat) :
    ∀ k, k < maxRetries →
      (iterate_failures mid maxRetries reason k).1 =
        (if k = 0 then [] else [(mid, k)]) ∧
      (iterate_failures mid maxRetries reason k).2.1 = false := by
  intro k
  induction k with
  | zero => intro _; exact ⟨rfl, rfl⟩
  | succ k ih =>
    intro hk
    obtain ⟨hst, _⟩ := ih (by omega)
    have hget : getRetry (iterate_failures mid maxRetries reason k).1 mid = k := by
      rw [hst]
      rcases Nat.eq_zero_or_pos k with h0 | h0
      · simp [h0, getRetry]
      · rw [if_neg (by omega)]
        simp [getRetry]
    constructor
    · rw [iterate_failures, handle_delivery_failure]
      simp only [increment_retry, hget, if_neg (by omega : ¬maxRetries ≤ k + 1)]
      rw [hst]
      rcases Nat.eq_zero_or_pos k with h0 | h0
      · simp [h0, setRetry]
      · rw [if_neg (by omega), if_neg (by omega)]
        simp [setRetry]
    · rw [iterate_failures, handle_delivery_failure]
      simp only [increment_retry, hget, if_neg (by omega : ¬maxRetries ≤ k + 1)]

/-- C5: for a failed delivery attempt (temporary return `False` or permanent
`DeliveryError`), the processor increments the in-memory retry counter of the
message id; when the new count reaches `max_retries` the raw bytes are moved
to `.failed`, the staging file is removed and the retry entry is cleared,
otherwise the item stays eligible (`.mail` suffix) for the next cycle — and,
from a fresh counter, the attempt counter stays below `max_retries` for the
first `max_retries - 1` failures and terminal `.failed` placement happens on
the `max_retries`-th, so at most `max_retries` attempts occur. -/
theorem c5_retry_accounting (m : RetryCounts) (mid : List Char) (maxRetries : Nat)
    (fn reason : List Char) (outcome : DeliveryOutcome)
    (hfail : outcome = .temporaryFailure ∨ outcome = .permanentFailure reason)
    (hnd : (m.map Prod.fst).Nodup) :
    (maxRetries ≤ getRetry m mid + 1 →
      (∃ r, (process_email_deliver m mid maxRetries outcome fn).2 =
        [.moveToFailed r, .removeFromStaging fn]) ∧
      getRetry (process_email_deliver m mid maxRetries outcome fn).1 mid = 0) ∧
    (getRetry m mid + 1 < maxRetries →
      getRetry (process_email_deliver m mid maxRetries outcome fn).1 mid =
        getRetry m mid + 1 ∧
      (".processing".toList.isSuffixOf fn = true →
        (process_email_deliver m mid maxRetries outcome fn).2 =
          [.restoreToStaging fn] ∧
        ".mail".toList.isSuffixOf (restore_filename fn) = true) ∧
      (".processing".toList.isSuffixOf fn = false →
        (process_email_deliver m mid maxRetries outcome fn).2 = [])) ∧
    (∀ k, k < maxRetries →
      (iterate_failures mid maxRetries reason k).2.1 = false) ∧
    (1 ≤ maxRetries →
      (iterate_failures mid maxRetries reason maxRetries).2.1 = true ∧
      getRetry (iterate_failures mid maxRetries reason maxRetries).1 mid = 0 ∧
      ∃ r, (iterate_failures mid maxRetries reason maxRetries).2.2 =
        [.moveToFailed r]) := by
  have hout : ∃ rs, deliver_with_retry m mid maxRetries outcome =
      handle_delivery_failure m mid maxRetries rs := by
    rcases hfail with h | h <;> rw [h] <;> exact ⟨_, rfl⟩
  obtain ⟨rs, hrs⟩ := hout
  have hspec := handle_failure_spec m mid maxRetries rs hnd
  refine ⟨fun hle => ?_, fun hlt => ?_, ?_, fun hmax => ?_⟩
  · obtain ⟨hb, hg, r, hacts⟩ := hspec.1 hle
    rw [process_email_deliver, hrs]
    rw [if_pos hb]
    exact ⟨⟨r, by rw [hacts]; rfl⟩, hg⟩
  · obtain ⟨hb, hg, hacts⟩ := hspec.2 hlt
    rw [process_email_deliver, hrs]
    rw [if_neg (by rw [hb]; exact Bool.false_ne_true)]
    refine ⟨?_, fun hsuf => ?_, fun hsuf => ?_⟩
    · split
      · exact hg
      · exact hg
    · refine ⟨?_, isSuffixOf_append _ _⟩
      rw [if_pos hsuf]
      simp [hacts]
    · rw [if_neg (by rw [hsuf]; exact Bool.false_ne_true)]
      simp [hacts]
  · exact fun k hk => (iterate_failures_below mid reason maxRetries k hk).2
  · have hprev := iterate_failures_below mid reason maxRetries (maxRetries - 1)
      (by omega)
    have hget : getRetry (iterate_failures mid maxRetries reason (maxRetries - 1)).1
        mid = maxRetries - 1 := by
      rw [hprev.1]
      rcases Nat.eq_zero_or_pos (maxRetries - 1) with h0 | h0
      · simp [h0, getRetry]
      · rw [if_neg (by omega)]
        simp [getRetry]
    have hstep : iterate_failures mid maxRetries reason maxRetries =
        handle_delivery_failure
          (iterate_failures mid maxRetries reason (maxRetries - 1)).1 mid
          maxRetries reason := by
      have : maxRetries = (maxRetries - 1) + 1 := by omega
      rw [this, iterate_failures]
      rw [← this]
    have hnd' : (((iterate_failures mid maxRetries reason (maxRetries - 1)).1.map
        Prod.fst).Nodup) := by
      rw [hprev.1]
      rcases Nat.eq_zero_or_pos (maxRetries - 1) with h0 | h0
      · simp [h0]
      · rw [if_neg (by omega)]
        simp
    have hspec' := (handle_failure_spec _ mid maxRetries reason hnd').1
      (by rw [hget]; omega)
    rw [hstep]
    exact hspec'

/-- Witness for C5 at concrete inputs: with `max_retries = 2` and one prior
failure recorded, a temporary failure of a `.processing`-claimed item reaches
the cap, moves the message to `.failed`, removes the staging file and clears
the counter; iterating failures from a fresh counter is non-terminal below
the cap and terminal at it. -/
theorem c5_retry_accounting_witness :
    ((∃ r, (process_email_deliver [("m1".toList, 1)] "m1".toList 2
        .temporaryFailure "x.processing".toList).2 =
      [.moveToFailed r, .removeFromStaging "x.processing".toList]) ∧
     getRetry (process_email_deliver [("m1".toList, 1)] "m1".toList 2
        .temporaryFailure "x.processing".toList).1 "m1".toList = 0) ∧
    (iterate_failures "m1".toList 2 "r".toList 1).2.1 = false ∧
    (iterate_failures "m1".toList 2 "r".toList 2).2.1 = true :=
  ⟨(c5_retry_accounting [("m1".toList, 1)] "m1".toList 2 "x.processing".toList
      "r".toList .temporaryFailure (Or.inl rfl) (by decide)).1 (by decide),
   (c5_retry_accounting [] "m1".toList 2 "f".toList "r".toList .temporaryFailure
      (Or.inl rfl) (by decide)).2.2.1 1 (by decide),
   ((c5_retry_accounting [] "m1".toList 2 "f".toList "r".toList .temporaryFailure
      (Or.inl rfl) (by decide)).2.2.2 (by decide)).1⟩

/-! ### Lemmas about the message walk -/

theorem multi_content_type_beq (st : String) (parts : PartList) :
    (get_content_type (.multi st parts) == "text/plain") = false := by
  rw [beq_eq_false_iff_ne]
  simp only [get_content_type]
  intro h
  have hd := congrArg String.data h
  rw [String.data_append] at hd
  have h1 : ("multipart/".data ++ st.data).head? = some 'm' := rfl
  rw [hd] at h1
  exact absurd h1 (by decide)

theorem walkList_plAppend : ∀ (a b : PartList),
    walkList (plAppend a b) = walkList a ++ walkList b
  | .nil, _ => rfl
  | .cons p ps, b => by
    simp only [plAppend, walkList, walkList_plAppend ps b, List.append_assoc]

/-! ### Claim C7 -/

/-- C7 fails on the code: `ParsedEmail.parse` decodes the whole payload with
`errors="ignore"` and then truncates to 800 CHARACTERS, whereas the claim
truncates to 800 bytes first and decodes with replacement.  On the payload
`b"\xff\x41"` the code's preview is `"A"` (the bad byte is dropped), while the
claimed pipeline yields U+FFFD followed by `"A"`. -/
theorem c7_counterexample :
    body_preview (.leaf "text/plain" (some [0xff, 0x41])) = ['A'] ∧
    body_preview_spec [0xff, 0x41] = [Char.ofNat 0xfffd, 'A'] ∧
    body_preview (.leaf "text/plain" (some [0xff, 0x41])) ≠ body_preview_spec [0xff, 0x41] := by
  decide

/-- C7 (amended): the body preview is computed from the selected text part —
the first `text/plain` leaf of a multipart message in walk order, or the only
part — by decoding the WHOLE payload as UTF-8 with undecodable bytes dropped
(`errors="ignore"`), truncating to the first 800 characters of the decoded
text, replacing newlines by spaces, and stripping; the result is at most 800
characters long. -/
theorem c7_body_preview (bytes : List Nat) (st : String) (pre rest : PartList)
    (hpre : ∀ q ∈ walkList pre, get_content_type q ≠ "text/plain") :
    body_preview (.leaf "text/plain" (some bytes)) =
      pyStrip (nlToSpace ((pyDecodeUtf8Ignore bytes).take 800)) ∧
    body_preview (.multi st (plAppend pre (.cons (.leaf "text/plain" (some bytes)) rest))) =
      pyStrip (nlToSpace ((pyDecodeUtf8Ignore bytes).take 800)) ∧
    (body_preview (.leaf "text/plain" (some bytes))).length ≤ 800 := by
  have hleaf : body_preview (.leaf "text/plain" (some bytes)) =
      pyStrip (nlToSpace ((pyDecodeUtf8Ignore bytes).take 800)) := rfl
  refine ⟨hleaf, ?_, ?_⟩
  · have hfind : (walk (.multi st (plAppend pre
        (.cons (.leaf "text/plain" (some bytes)) rest)))).find?
          (fun p => get_content_type p == "text/plain") =
        some (.leaf "text/plain" (some bytes)) := by
      have hw : walk (.multi st (plAppend pre (.cons (.leaf "text/plain" (some bytes)) rest))) =
          .multi st (plAppend pre (.cons (.leaf "text/plain" (some bytes)) rest)) ::
            (walkList pre ++ ([.leaf "text/plain" (some bytes)] ++ walkList rest)) := by
        rw [walk, walkList_plAppend, walkList, walk]
      rw [hw]
      rw [List.find?_cons_of_neg _ (by rw [multi_content_type_beq]; exact Bool.false_ne_true)]
      rw [List.find?_append]
      have hnone : (walkList pre).find? (fun p => get_content_type p == "text/plain") = none :=
        List.find?_eq_none.mpr fun q hq => by
          simp only [beq_iff_eq]; exact hpre q hq
      rw [hnone]
      rfl
    simp only [body_preview, extract_body, isMultipartB, if_true, hfind]
    rfl
  · rw [hleaf]
    have h1 := pyStrip_length_le (nlToSpace ((pyDecodeUtf8Ignore bytes).take 800))
    have h2 : (nlToSpace ((pyDecodeUtf8Ignore bytes).take 800)).length =
        ((pyDecodeUtf8Ignore bytes).take 800).length := List.length_map _ _
    have h3 := List.length_take_le 800 (pyDecodeUtf8Ignore bytes)
    omega

/-- Witness for C7 at a concrete input: a multipart message whose first part is
`text/html` and whose second part is `text/plain` with payload `b"hi"`. -/
theorem c7_body_preview_witness :
    body_preview (.multi "mixed" (plAppend (.cons (.leaf "text/html" (some [72])) .nil)
        (.cons (.leaf "text/plain" (some [104, 105])) .nil))) =
      pyStrip (nlToSpace ((pyDecodeUtf8Ignore [104, 105]).take 800)) :=
  (c7_body_preview [104, 105] "mixed" (.cons (.leaf "text/html" (some [72])) .nil) .nil
    (by decide)).2.1

/-! ### Claim C10 -/

/-- C10: on a multipart message with no `text/plain` part anywhere in its walk,
`ParsedEmail.parse` (a total function in this embedding, as in the source,
where the body loop raises nothing) leaves the body at the empty string; the
same holds when the selected part's decoded payload is not a byte sequence —
both for the part selected from a multipart walk and for a single-part message. -/
theorem c10_empty_preview (st : String) (parts : PartList) (ct : String) :
    ((∀ q ∈ walk (.multi st parts), get_content_type q ≠ "text/plain") →
      body_preview (.multi st parts) = []) ∧
    (∀ p, (walk (.multi st parts)).find?
        (fun q => get_content_type q == "text/plain") = some p →
      get_payload_decode p = none → body_preview (.multi st parts) = []) ∧
    body_preview (.leaf ct none) = [] := by
  refine ⟨fun h => ?_, fun p hf hp => ?_, rfl⟩
  · have hn : (walk (.multi st parts)).find?
        (fun q => get_content_type q == "text/plain") = none :=
      List.find?_eq_none.mpr fun q hq => by
        simp only [beq_iff_eq]; exact h q hq
    simp only [body_preview, extract_body, isMultipartB, if_true, hn]
    rfl
  · simp only [body_preview, extract_body, isMultipartB, if_true, hf, hp]
    rfl

/-- Witness for C10 at concrete inputs: a multipart message with only a
`text/html` part, and one whose `text/plain` part has a non-bytes payload. -/
theorem c10_empty_preview_witness :
    body_preview (.multi "mixed" (.cons (.leaf "text/html" (some [60])) .nil)) = [] ∧
    body_preview (.multi "mixed" (.cons (.leaf "text/plain" none) .nil)) = [] :=
  ⟨(c10_empty_preview "mixed" (.cons (.leaf "text/html" (some [60])) .nil) "x").1 (by decide),
   (c10_empty_preview "mixed" (.cons (.leaf "text/plain" none) .nil) "x").2.1
     (.leaf "text/plain" none) rfl rfl⟩

/-! ### Claim C8 -/

/-- C8 fails on the code: the three injection substrings are removed by one
`str.replace` pass each, in the order `---`, `===`, backticks; removing `===`
from `--===-` joins the surrounding hyphens into a fresh `---`, which the
already-finished first pass never sees, so the sanitized output still contains
`---`. -/
theorem c8_counterexample :
    sanitize_for_prompt "--===-".toList 200 = "---".toList ∧
    containsSub "---".toList (sanitize_for_prompt "--===-".toList 200) = true := by
  decide

/-- C8 (amended): every sanitized field is at most its length limit and
contains no control character (in particular no ESC, hence no ANSI escape
sequence); the substrings `---`, `===` and three backticks are each removed by
a single left-to-right pass, in that order, so a later pass can re-create an
earlier pattern and an occurrence of `---` or `===` may survive. -/
theorem c8_sanitized_fields (text : List Char) (maxLength : Nat) :
    (sanitize_for_prompt text maxLength).length ≤ maxLength ∧
    ∀ c ∈ sanitize_for_prompt text maxLength, isCtrlChar c = false ∧ c ≠ '\x1b' := by
  constructor
  · unfold sanitize_for_prompt
    split
    · simp
    · exact le_trans (pyStrip_length_le _) (List.length_take_le _ _)
  · intro c hc
    have h := mem_sanitize_not_ctrl hc
    refine ⟨h, fun he => ?_⟩
    rw [he] at h
    simp [isCtrlChar] at h

/-- Witness for C8 at a concrete input: a field with a control character and an
ANSI escape sanitizes to a short, control-free value. -/
theorem c8_sanitized_fields_witness :
    (sanitize_for_prompt "a\x01\x1b[31mb".toList 200).length ≤ 200 ∧
    isCtrlChar 'a' = false ∧ 'a' ≠ '\x1b' :=
  ⟨(c8_sanitized_fields "a\x01\x1b[31mb".toList 200).1,
   (c8_sanitized_fields "a\x01\x1b[31mb".toList 200).2 'a' (by decide)⟩

/-! ### Claim C9 -/

/-- C9 fails on the code: the fail-closed result on an API error carries reason
"AI API error: " followed by the exception text, which contains a colon and so
violates the `[A-Za-z0-9 ,.\-]` reason grammar. -/
theorem c9_counterexample :
    (analyze_email (.apiError [])).reason = "AI API error: ".toList ∧
    reasonGrammar (analyze_email (.apiError [])).reason = false := by
  decide

/-- C9 (amended): results parsed from a matching response line and the
"Invalid AI response format" fallback satisfy the 1-80 character reason grammar
over `[A-Za-z0-9 ,.\-]`; the fail-closed results for API errors and for other
exceptions are `QUARANTINE` with reasons "AI API error: " / "Analysis failed: "
plus at most 40 characters of the exception text — still at most 80 characters
long, but containing a colon and hence outside the grammar's alphabet. -/
theorem c9_reason_grammar :
    (∀ t, reasonGrammar (analyze_email (.ok t)).reason = true) ∧
    (∀ e, (analyze_email (.apiError e)).verdict = .QUARANTINE ∧
      (analyze_email (.apiError e)).reason = "AI API error: ".toList ++ e.take 40 ∧
      (analyze_email (.apiError e)).reason.length ≤ 80 ∧
      reasonGrammar (analyze_email (.apiError e)).reason = false) ∧
    (∀ e, (analyze_email (.otherError e)).verdict = .QUARANTINE ∧
      (analyze_email (.otherError e)).reason = "Analysis failed: ".toList ++ e.take 40 ∧
      (analyze_email (.otherError e)).reason.length ≤ 80 ∧
      reasonGrammar (analyze_email (.otherError e)).reason = false) := by
  refine ⟨fun t => ?_, fun e => ⟨rfl, rfl, ?_, ?_⟩, fun e => ⟨rfl, rfl, ?_, ?_⟩⟩
  · simp only [analyze_email, parse_response]
    rcases hf : findVerdict (pySplitNl t) with _ | ⟨v, r⟩
    · rfl
    · obtain ⟨l, _, hm⟩ := findVerdict_eq_some hf
      exact matchVerdictLine_grammar hm
  · have h1 := List.length_take_le 40 e
    have h2 : "AI API error: ".toList.length = 14 := by decide
    simp only [analyze_email, List.length_append]
    omega
  · simp only [analyze_email, reasonGrammar, List.all_append]
    have h : "AI API error: ".toList.all isReasonChar = false := by decide
    rw [h, Bool.false_and, Bool.and_false]
  · have h1 := List.length_take_le 40 e
    have h2 : "Analysis failed: ".toList.length = 17 := by decide
    simp only [analyze_email, List.length_append]
    omega
  · simp only [analyze_email, reasonGrammar, List.all_append]
    have h : "Analysis failed: ".toList.all isReasonChar = false := by decide
    rw [h, Bool.false_and, Bool.and_false]

end PostalInspector
